import Mathlib

/- Verification of the dreamscape 3D graph client (src/src/source.js).
   Shallow embedding: JS numbers are modelled as rationals, `Math.floor` as
   `Int.floor`, absent (`undefined`/`null`) fields as `Option`, and object
   references as indices into the lists that own the objects. -/

set_option linter.unusedVariables false

namespace Dreamscape

/-- A 3D position (a THREE.Vector3 value). -/
abbrev Vec3 := ℚ × ℚ × ℚ

/-- A node of the backend graph: `{ id: string }`. -/
structure Node where
  id : String
deriving DecidableEq

/-- A link of the backend graph: `{ source, target, weight?, value? }`.
`none` models an absent (`undefined`/`null`) JS field. -/
structure Link where
  source : String
  target : String
  weight : Option ℚ
  value : Option ℚ
deriving DecidableEq

/-- A graph snapshot `{ nodes: [...], links: [...] }`. -/
structure Graph where
  nodes : List Node
  links : List Link
deriving DecidableEq

/-- The effective link weight `(l.weight ?? l.value) || 1` (source.js lines
97 and 119): nullish-coalescing choice of `weight` over `value`, then the
JS `|| 1` turns a falsy result (absent field or the number 0) into 1. -/
def effectiveWeight (l : Link) : ℚ :=
  match l.weight.orElse (fun _ => l.value) with
  | none => 1
  | some w => if w = 0 then 1 else w

/-- `Math.min(...ws)`: `none` on the empty list (where JS yields Infinity,
a value the program never consumes). -/
def jsMin : List ℚ → Option ℚ
  | [] => none
  | w :: ws => some (ws.foldl min w)

/-- `Math.max(...ws)`: `none` on the empty list (JS yields -Infinity). -/
def jsMax : List ℚ → Option ℚ
  | [] => none
  | w :: ws => some (ws.foldl max w)

/-- `graph.links.map(l => (l.weight ?? l.value) || 1)` (line 97). -/
def linkWeights (g : Graph) : List ℚ := g.links.map effectiveWeight

/-- `const minWeight = Math.min(...weights)` (line 98). -/
def minWeightOf (g : Graph) : Option ℚ := jsMin (linkWeights g)

/-- `const maxWeight = Math.max(...weights)` (line 99). -/
def maxWeightOf (g : Graph) : Option ℚ := jsMax (linkWeights g)

/-- The guarded normalisation denominator `(max - min || 1)` (line 103). -/
def normDenom (mn mx : ℚ) : ℚ := if mx - mn = 0 then 1 else mx - mn

/-- `const t = (weight - min) / (max - min || 1)` (line 103). -/
def colorT (w mn mx : ℚ) : ℚ := (w - mn) / normDenom mn mx

/-- `const r = Math.floor(255 * t)` (line 104). -/
def redChannel (w mn mx : ℚ) : ℤ := ⌊255 * colorT w mn mx⌋

/-- `const g = 0` (line 105). -/
def greenChannel : ℤ := 0

/-- `const b = Math.floor(255 * (1 - t))` (line 106). -/
def blueChannel (w mn mx : ℚ) : ℤ := ⌊255 * (1 - colorT w mn mx)⌋

/-- `return (r << 16) | (g << 8) | b` (line 107); for channels in 0..255 the
JS int32 bit operations agree with the natural-number ones used here. -/
def getColorForWeight (w mn mx : ℚ) : ℕ :=
  ((redChannel w mn mx).toNat <<< 16) ||| (greenChannel.toNat <<< 8) |||
    (blueChannel w mn mx).toNat

/-- `graph.nodes.find(n => n.id === s)` (lines 92-93), returned as the index
of the first matching node: the index stands for the found object
reference, `none` for `undefined`. -/
def resolveId : List Node → String → Option ℕ
  | [], _ => none
  | n :: ns, s => if n.id = s then some 0 else (resolveId ns s).map (fun k => k + 1)

/-- A rendered node label mesh (`textMesh`, lines 74-82): its `userData.id`,
its position, and its material color. `renderGraph3D` never sets
`mesh.position` (only `n.x/y/z` on the data node), so a fresh mesh sits at
the THREE default origin until the first simulation tick. -/
structure NodeMesh where
  id : String
  position : Vec3
  color : ℕ
deriving DecidableEq

/-- A rendered link line (lines 114-132): the endpoint node indices stand
for the `userData.source`/`userData.target` object references; `p1`/`p2`
are the two vertices of its geometry; `weight`, `originalColor`, the
material `color` and `opacity` mirror the JS fields. -/
structure LineVis where
  srcIdx : ℕ
  tgtIdx : ℕ
  weight : ℚ
  color : ℕ
  originalColor : Option ℕ
  opacity : ℚ
  p1 : Vec3
  p2 : Vec3
deriving DecidableEq

/-- The contents of `graphGroup`: node meshes and link lines. -/
structure RenderState where
  meshes : List NodeMesh
  lines : List LineVis
deriving DecidableEq

/-- Creation of one line (lines 111-132): skipped (`return`) when either
endpoint is unresolved; the geometry is built from the two endpoint meshes'
positions, still the default origin at render time; `userData` records the
weight and the original weight-based color; opacity 0.9. -/
def buildLine (nodes : List Node) (mn mx : ℚ) (l : Link) : Option LineVis :=
  match resolveId nodes l.source, resolveId nodes l.target with
  | some si, some ti =>
    some { srcIdx := si, tgtIdx := ti, weight := effectiveWeight l,
           color := getColorForWeight (effectiveWeight l) mn mx,
           originalColor := some (getColorForWeight (effectiveWeight l) mn mx),
           opacity := 9/10, p1 := (0, 0, 0), p2 := (0, 0, 0) }
  | _, _ => none

/-- The links whose two endpoints both resolve to nodes of the snapshot. -/
def resolvedLinks (g : Graph) : List Link :=
  g.links.filter
    (fun l => (resolveId g.nodes l.source).isSome && (resolveId g.nodes l.target).isSome)

/-- The `graphGroup` contents built by `renderGraph3D` once the font is
loaded (lines 70-133): the group is cleared, then one text mesh per node
(material color 0xffffff) and one line per resolvable link are added.
The `getD 0` defaults are never consumed: a color is computed only when at
least one link exists, and then `minWeightOf`/`maxWeightOf` are `some`. -/
def buildGroup (g : Graph) : RenderState :=
  { meshes := g.nodes.map (fun n => { id := n.id, position := (0, 0, 0), color := 0xffffff }),
    lines := g.links.filterMap
      (buildLine g.nodes ((minWeightOf g).getD 0) ((maxWeightOf g).getD 0)) }

/-- The `userData.links` incident-line list of the mesh at node index `i`,
derived from creation order: each created line (index `j0`, `j0+1`, ... in
link order) is pushed onto its source mesh's list and then onto its target
mesh's list (lines 129-130). -/
def meshLinksFrom (j0 : ℕ) (i : ℕ) : List LineVis → List ℕ
  | [] => []
  | ln :: rest =>
    ((if ln.srcIdx = i then [j0] else []) ++ (if ln.tgtIdx = i then [j0] else [])) ++
      meshLinksFrom (j0 + 1) i rest

/-- `mesh.userData.links` for the mesh at index `i`, as indices into `lines`. -/
def meshLinks (lines : List LineVis) (i : ℕ) : List ℕ := meshLinksFrom 0 i lines

/-- The module-level mutable state touched by `renderGraph3D`: `loadedFont`
(whether the FontLoader callback has fired), `currentGraph`, and the
`graphGroup` contents. -/
structure AppState where
  loadedFont : Bool
  currentGraph : Graph
  group : RenderState
deriving DecidableEq

/-- `renderGraph3D(graph)` (lines 63-133): an early `return` leaving all
state untouched while the font is not loaded; otherwise it stores the
graph, clears the group and rebuilds it. (The simulation restart only
drives the tick handler, modelled separately by `tickState`.) -/
def renderGraph3D (s : AppState) (g : Graph) : AppState :=
  if s.loadedFont then { s with currentGraph := g, group := buildGroup g }
  else s

/-- `submitDream` (lines 193-207) by its observable outcome: `Except.ok g`
models a fulfilled fetch whose parsed JSON carried `data.graph = g` and
leads to `renderGraph3D(data.graph)`; `Except.error` models a rejected
fetch or JSON step, whose `.catch` only calls `console.error`. -/
def submitDream (s : AppState) (response : Except String Graph) : AppState :=
  match response with
  | Except.ok g => renderGraph3D s g
  | Except.error _ => s

/-- The node half of the tick handler (lines 145-149): each node's simulated
position is copied into its mesh, `n.mesh.position.set(n.x, n.y, n.z)`;
`pos k` is the simulated position of node `k` after this tick's force step,
and mesh `k` is node `k`'s mesh. -/
def updatePositionsFrom (pos : ℕ → Vec3) (k : ℕ) : List NodeMesh → List NodeMesh
  | [] => []
  | m :: ms => { m with position := pos k } :: updatePositionsFrom pos (k + 1) ms

/-- The link half of the tick handler (lines 152-187): unresolved links are
skipped; each resolved link updates its existing line `l.line` - the next
element of `olds`, in creation order - in place: both endpoint vertices are
set from the meshes just moved to `pos`, the color is recomputed from the
weight and the snapshot min/max, and `userData.weight` is refreshed. Were
the line missing, the fallback branch creates it afresh with the same
endpoints, color and a recorded `originalColor`. The update branch does not
rewrite `userData.source`/`target`; their indices are re-derived here by
the same deterministic `resolveId` on the same graph, hence unchanged. -/
def tickLines (nodes : List Node) (pos : ℕ → Vec3) (mn mx : ℚ) :
    List Link → List LineVis → List LineVis
  | [], _ => []
  | l :: ls, olds =>
    match resolveId nodes l.source, resolveId nodes l.target with
    | some si, some ti =>
      (match olds.head? with
       | some old =>
         { old with srcIdx := si, tgtIdx := ti,
                    weight := effectiveWeight l,
                    color := getColorForWeight (effectiveWeight l) mn mx,
                    p1 := pos si, p2 := pos ti }
       | none =>
         { srcIdx := si, tgtIdx := ti, weight := effectiveWeight l,
           color := getColorForWeight (effectiveWeight l) mn mx,
           originalColor := some (getColorForWeight (effectiveWeight l) mn mx),
           opacity := 9/10, p1 := pos si, p2 := pos ti }) ::
        tickLines nodes pos mn mx ls olds.tail
    | _, _ => tickLines nodes pos mn mx ls olds

/-- One simulation tick (lines 143-188) on the group contents: meshes are
moved first, then every resolved link's line is synchronised to them. -/
def tickState (g : Graph) (pos : ℕ → Vec3) (st : RenderState) : RenderState :=
  { meshes := updatePositionsFrom pos 0 st.meshes,
    lines := tickLines g.nodes pos ((minWeightOf g).getD 0) ((maxWeightOf g).getD 0)
      g.links st.lines }

/-- `const axisLength = 40` (line 48). -/
def axisLength : ℚ := 40

/-- `n.x/y/z = (Math.random() - 0.5) * axisLength` (lines 85-87): the
simulated start position of node `k`, with `rand k` the three uniform draws
in [0,1). Only the data node moves; the mesh stays at the origin. -/
def initialSimPosition (rand : ℕ → ℚ × ℚ × ℚ) (k : ℕ) : Vec3 :=
  (((rand k).1 - 1/2) * axisLength, ((rand k).2.1 - 1/2) * axisLength,
    ((rand k).2.2 - 1/2) * axisLength)

/-- The UI state touched by the mousemove handler: the group contents, the
`highlightedNode` reference (as a mesh index), and tooltip visibility. -/
structure UIState where
  group : RenderState
  highlighted : Option ℕ
  tooltipVisible : Bool
deriving DecidableEq

/-- The restore color used by `resetHighlights` (line 260): the recorded
`userData.originalColor` when truthy (the number 0 is falsy in JS), else
the neutral gray 0x888888. -/
def resetColor (ln : LineVis) : ℕ :=
  match ln.originalColor with
  | some c => if c = 0 then 0x888888 else c
  | none => 0x888888

/-- `resetHighlights()` (lines 256-270): every node mesh back to the default
0xffffff, every line back to its restore color with opacity 0.9, and the
`highlightedNode` reference cleared (modelled at the call sites). -/
def resetHighlights (st : RenderState) : RenderState :=
  { meshes := st.meshes.map (fun m => { m with color := 0xffffff }),
    lines := st.lines.map (fun ln => { ln with color := resetColor ln, opacity := 9/10 }) }

/-- The mesh half of the recoloring on a fresh hit (line 242): only the hit
mesh - the one at index `i`, `k` counting from the start - turns 0xffff00. -/
def highlightMeshesFrom (k : ℕ) (i : ℕ) : List NodeMesh → List NodeMesh
  | [] => []
  | m :: ms =>
    (if k = i then { m with color := 0xffff00 } else m) :: highlightMeshesFrom (k + 1) i ms

/-- Recoloring on a fresh hit (lines 242-247): the hit mesh to 0xffff00 and
every line of its `userData.links` list - exactly the lines with an
endpoint index `i`, see `meshLinks` - to 0xffff00. -/
def highlightNode (st : RenderState) (i : ℕ) : RenderState :=
  { meshes := highlightMeshesFrom 0 i st.meshes,
    lines := st.lines.map (fun ln =>
      if ln.srcIdx = i ∨ ln.tgtIdx = i then { ln with color := 0xffff00 } else ln) }

/-- The mousemove handler (lines 222-254), given the raycast outcome `hit`:
the index of the intersected node mesh, if any. On a hit the tooltip is
shown and, when the hit differs from the current `highlightedNode`,
highlights are reset and then the hit node and its incident lines are
recolored; on no hit the tooltip is hidden and highlights are reset. -/
def onMouseMove (st : UIState) (hit : Option ℕ) : UIState :=
  match hit with
  | some i =>
    if st.highlighted = some i then { st with tooltipVisible := true }
    else
      { group := highlightNode (resetHighlights st.group) i,
        highlighted := some i, tooltipVisible := true }
  | none =>
    { group := resetHighlights st.group, highlighted := none, tooltipVisible := false }

/-! Helper lemmas about the embedded operations. -/

theorem foldl_min_le (l : List ℚ) : ∀ a : ℚ, l.foldl min a ≤ a := by
  induction l with
  | nil => intro a; exact le_refl a
  | cons b t ih => intro a; exact le_trans (ih (min a b)) (min_le_left a b)

theorem foldl_min_le_of_mem (l : List ℚ) (x : ℚ) (hx : x ∈ l) :
    ∀ a : ℚ, l.foldl min a ≤ x := by
  induction l with
  | nil => cases hx
  | cons b t ih =>
    intro a
    rcases List.mem_cons.mp hx with h | h
    · subst h; exact le_trans (foldl_min_le t (min a x)) (min_le_right a x)
    · exact ih h (min a b)

theorem le_foldl_max (l : List ℚ) : ∀ a : ℚ, a ≤ l.foldl max a := by
  induction l with
  | nil => intro a; exact le_refl a
  | cons b t ih => intro a; exact le_trans (le_max_left a b) (ih (max a b))

theorem le_foldl_max_of_mem (l : List ℚ) (x : ℚ) (hx : x ∈ l) :
    ∀ a : ℚ, x ≤ l.foldl max a := by
  induction l with
  | nil => cases hx
  | cons b t ih =>
    intro a
    rcases List.mem_cons.mp hx with h | h
    · subst h; exact le_trans (le_max_right a x) (le_foldl_max t (max a x))
    · exact ih h (max a b)

theorem jsMin_le_of_mem {ws : List ℚ} {mn x : ℚ} (h : jsMin ws = some mn) (hx : x ∈ ws) :
    mn ≤ x := by
  cases ws with
  | nil => simp [jsMin] at h
  | cons w t =>
    simp only [jsMin, Option.some.injEq] at h
    subst h
    rcases List.mem_cons.mp hx with hh | hh
    · subst hh; exact foldl_min_le t x
    · exact foldl_min_le_of_mem t x hh w

theorem le_jsMax_of_mem {ws : List ℚ} {mx x : ℚ} (h : jsMax ws = some mx) (hx : x ∈ ws) :
    x ≤ mx := by
  cases ws with
  | nil => simp [jsMax] at h
  | cons w t =>
    simp only [jsMax, Option.some.injEq] at h
    subst h
    rcases List.mem_cons.mp hx with hh | hh
    · subst hh; exact le_foldl_max t x
    · exact le_foldl_max_of_mem t x hh w

theorem jsMin_le_jsMax {ws : List ℚ} {mn mx : ℚ}
    (h1 : jsMin ws = some mn) (h2 : jsMax ws = some mx) : mn ≤ mx := by
  cases ws with
  | nil => simp [jsMin] at h1
  | cons w t =>
    exact le_trans (jsMin_le_of_mem h1 (List.mem_cons_self w t))
      (le_jsMax_of_mem h2 (List.mem_cons_self w t))

theorem resolveId_lt {s : String} :
    ∀ {ns : List Node} {k : ℕ}, resolveId ns s = some k → k < ns.length := by
  intro ns
  induction ns with
  | nil => intro k h; simp [resolveId] at h
  | cons n t ih =>
    intro k h
    simp only [resolveId] at h
    by_cases hid : n.id = s
    · rw [if_pos hid] at h
      cases h
      simp
    · rw [if_neg hid] at h
      cases hr : resolveId t s with
      | none => rw [hr] at h; simp at h
      | some j =>
        rw [hr] at h
        simp only [Option.map_some', Option.some.injEq] at h
        have hj := ih hr
        simp only [List.length_cons]
        omega

theorem buildLine_isSome (nodes : List Node) (mn mx : ℚ) (l : Link) :
    (buildLine nodes mn mx l).isSome =
      ((resolveId nodes l.source).isSome && (resolveId nodes l.target).isSome) := by
  unfold buildLine
  cases resolveId nodes l.source <;> cases resolveId nodes l.target <;> rfl

theorem length_filterMap_buildLine (nodes : List Node) (mn mx : ℚ) :
    ∀ ls : List Link,
      (ls.filterMap (buildLine nodes mn mx)).length =
        (ls.filter
            (fun l => (resolveId nodes l.source).isSome && (resolveId nodes l.target).isSome)).length := by
  intro ls
  induction ls with
  | nil => rfl
  | cons l t ih =>
    rw [List.filterMap_cons, List.filter_cons]
    cases hb : buildLine nodes mn mx l with
    | none =>
      have hf : ((resolveId nodes l.source).isSome && (resolveId nodes l.target).isSome) = false := by
        rw [← buildLine_isSome nodes mn mx l, hb]; rfl
      simp [hf, ih]
    | some ln =>
      have hf : ((resolveId nodes l.source).isSome && (resolveId nodes l.target).isSome) = true := by
        rw [← buildLine_isSome nodes mn mx l, hb]; rfl
      simp [hf, ih]

theorem meshLinksFrom_lt (i : ℕ) :
    ∀ (lines : List LineVis) (j0 j : ℕ),
      j ∈ meshLinksFrom j0 i lines → j < j0 + lines.length := by
  intro lines
  induction lines with
  | nil => intro j0 j h; simp [meshLinksFrom] at h
  | cons ln t ih =>
    intro j0 j h
    simp only [meshLinksFrom, List.mem_append] at h
    rcases h with h | h
    · have hj : j = j0 := by
        by_cases c1 : ln.srcIdx = i <;> by_cases c2 : ln.tgtIdx = i <;>
          simp [c1, c2] at h <;> omega
      subst hj
      simp only [List.length_cons]
      omega
    · have := ih (j0 + 1) j h
      simp only [List.length_cons]
      omega

theorem tickLines_mem (nodes : List Node) (pos : ℕ → Vec3) (mn mx : ℚ) :
    ∀ (ls : List Link) (olds : List LineVis) (ln : LineVis),
      ln ∈ tickLines nodes pos mn mx ls olds →
      ln.srcIdx < nodes.length ∧ ln.tgtIdx < nodes.length ∧
        ln.p1 = pos ln.srcIdx ∧ ln.p2 = pos ln.tgtIdx := by
  intro ls
  induction ls with
  | nil => intro olds ln h; simp [tickLines] at h
  | cons l t ih =>
    intro olds ln h
    unfold tickLines at h
    cases hs : resolveId nodes l.source with
    | none =>
      rw [hs] at h
      exact ih olds ln h
    | some si =>
      cases ht : resolveId nodes l.target with
      | none =>
        rw [hs, ht] at h
        exact ih olds ln h
      | some ti =>
        rw [hs, ht] at h
        rcases List.mem_cons.mp h with h | h
        · subst h
          cases olds.head? <;>
            exact ⟨resolveId_lt hs, resolveId_lt ht, rfl, rfl⟩
        · exact ih olds.tail ln h

theorem updatePositionsFrom_get (pos : ℕ → Vec3) :
    ∀ (ms : List NodeMesh) (k n : ℕ),
      (updatePositionsFrom pos k ms).get? n =
        (ms.get? n).map (fun m => { m with position := pos (k + n) }) := by
  intro ms
  induction ms with
  | nil => intro k n; simp [updatePositionsFrom]
  | cons m t ih =>
    intro k n
    cases n with
    | zero => simp [updatePositionsFrom]
    | succ n =>
      simp only [updatePositionsFrom, List.get?]
      rw [ih (k + 1) n]
      have harith : k + 1 + n = k + (n + 1) := by omega
      rw [harith]

theorem highlightMeshesFrom_get (i : ℕ) :
    ∀ (ms : List NodeMesh) (k n : ℕ),
      (highlightMeshesFrom k i ms).get? n =
        (ms.get? n).map
          (fun m => if k + n = i then { m with color := 0xffff00 } else m) := by
  intro ms
  induction ms with
  | nil => intro k n; simp [highlightMeshesFrom]
  | cons m t ih =>
    intro k n
    cases n with
    | zero => simp [highlightMeshesFrom]
    | succ n =>
      simp only [highlightMeshesFrom, List.get?]
      rw [ih (k + 1) n]
      have harith : k + 1 + n = k + (n + 1) := by omega
      rw [harith]

/-! Concrete sample snapshots used to instantiate the theorems. -/

/-- A two-node snapshot whose resolved links carry weights 1 and 5. -/
def gradientGraph : Graph :=
  ⟨[⟨"a"⟩, ⟨"b"⟩], [⟨"a", "b", some 1, none⟩, ⟨"b", "a", some 5, none⟩]⟩

/-- A two-node snapshot whose two links both carry weight 3. -/
def uniformGraph : Graph :=
  ⟨[⟨"a"⟩, ⟨"b"⟩], [⟨"a", "b", some 3, none⟩, ⟨"b", "a", some 3, none⟩]⟩

/-- The first link of `uniformGraph`. -/
def uniformLink : Link := ⟨"a", "b", some 3, none⟩

/-- An app state in which the font resource has not loaded. -/
def fontlessState : AppState := ⟨false, ⟨[], []⟩, ⟨[], []⟩⟩

/-! The claims. -/

/-- C1: for every snapshot whose link weights have min ≠ max, the
weight-to-color mapping is monotonic in weight - the red channel
`floor(255*(w-min)/(max-min))` non-decreasing and the blue channel
`floor(255*(1-(w-min)/(max-min)))` non-increasing - and for every weight
`w` with `min ≤ w ≤ max` both channels lie in 0..255; green is always 0. -/
theorem claim1_color_monotone_bounded (g : Graph) (mn mx : ℚ)
    (hmin : minWeightOf g = some mn) (hmax : maxWeightOf g = some mx) (hne : mn ≠ mx) :
    (∀ w1 w2 : ℚ, w1 ≤ w2 →
        redChannel w1 mn mx ≤ redChannel w2 mn mx ∧
        blueChannel w2 mn mx ≤ blueChannel w1 mn mx) ∧
    (∀ w : ℚ, mn ≤ w → w ≤ mx →
        0 ≤ redChannel w mn mx ∧ redChannel w mn mx ≤ 255 ∧
        0 ≤ blueChannel w mn mx ∧ blueChannel w mn mx ≤ 255) ∧
    greenChannel = 0 := by
  have hmin' : jsMin (linkWeights g) = some mn := hmin
  have hmax' : jsMax (linkWeights g) = some mx := hmax
  have hle : mn ≤ mx := jsMin_le_jsMax hmin' hmax'
  have hlt : mn < mx := lt_of_le_of_ne hle hne
  have hdne : mx - mn ≠ 0 := sub_ne_zero.mpr hlt.ne'
  have hd : normDenom mn mx = mx - mn := if_neg hdne
  have hdpos : 0 < mx - mn := sub_pos.mpr hlt
  refine ⟨?_, ?_, rfl⟩
  · intro w1 w2 h12
    have hT : colorT w1 mn mx ≤ colorT w2 mn mx := by
      unfold colorT
      rw [hd]
      exact div_le_div_of_nonneg_right (sub_le_sub_right h12 mn) hdpos.le
    constructor
    · exact Int.floor_le_floor (by linarith)
    · exact Int.floor_le_floor (by linarith)
  · intro w hw1 hw2
    have ht0 : 0 ≤ colorT w mn mx := by
      unfold colorT
      rw [hd]
      exact div_nonneg (by linarith) hdpos.le
    have ht1 : colorT w mn mx ≤ 1 := by
      unfold colorT
      rw [hd]
      exact (div_le_one hdpos).mpr (by linarith)
    refine ⟨?_, ?_, ?_, ?_⟩
    · exact Int.le_floor.mpr
        (by exact_mod_cast mul_nonneg (by norm_num : (0:ℚ) ≤ 255) ht0)
    · calc ⌊255 * colorT w mn mx⌋ ≤ ⌊(255 : ℚ)⌋ := Int.floor_le_floor (by nlinarith)
        _ = 255 := by norm_num
    · exact Int.le_floor.mpr
        (by exact_mod_cast mul_nonneg (by norm_num : (0:ℚ) ≤ 255) (by linarith))
    · calc ⌊255 * (1 - colorT w mn mx)⌋ ≤ ⌊(255 : ℚ)⌋ :=
          Int.floor_le_floor (by nlinarith)
        _ = 255 := by norm_num

/-- Witness for C1 at `gradientGraph` (weights 1 and 5): monotone at 2 ≤ 3
and bounded at w = 3. -/
theorem claim1_color_monotone_bounded_witness :
    minWeightOf gradientGraph = some 1 ∧ maxWeightOf gradientGraph = some 5 ∧
    (1 : ℚ) ≠ 5 ∧
    (redChannel 2 1 5 ≤ redChannel 3 1 5 ∧ blueChannel 3 1 5 ≤ blueChannel 2 1 5) ∧
    (0 ≤ redChannel 3 1 5 ∧ redChannel 3 1 5 ≤ 255 ∧
      0 ≤ blueChannel 3 1 5 ∧ blueChannel 3 1 5 ≤ 255) ∧
    greenChannel = 0 := by
  have h1 : minWeightOf gradientGraph = some 1 := by
    norm_num [gradientGraph, minWeightOf, linkWeights, jsMin, effectiveWeight,
      Option.orElse, min_def]
  have h2 : maxWeightOf gradientGraph = some 5 := by
    norm_num [gradientGraph, maxWeightOf, linkWeights, jsMax, effectiveWeight,
      Option.orElse, max_def]
  have h3 : (1 : ℚ) ≠ 5 := by norm_num
  have H := claim1_color_monotone_bounded gradientGraph 1 5 h1 h2 h3
  exact ⟨h1, h2, h3, H.1 2 3 (by norm_num), H.2.1 3 (by norm_num) (by norm_num), H.2.2⟩

/-- C2: when the snapshot's min and max weights coincide, the guarded
denominator is 1 (no division by zero) and every edge gets the identical
low-weight color: red 0, blue 255, i.e. 0x0000ff - both per link and on
every line actually built into the group. -/
theorem claim2_uniform_weights_low_color (g : Graph) (m : ℚ)
    (hmin : minWeightOf g = some m) (hmax : maxWeightOf g = some m) :
    normDenom m m = 1 ∧
    (∀ l ∈ g.links,
        redChannel (effectiveWeight l) m m = 0 ∧
        blueChannel (effectiveWeight l) m m = 255 ∧
        getColorForWeight (effectiveWeight l) m m = 0x0000ff) ∧
    ∀ ln ∈ (buildGroup g).lines, ln.color = 0x0000ff := by
  have hmin' : jsMin (linkWeights g) = some m := hmin
  have hmax' : jsMax (linkWeights g) = some m := hmax
  have hden : normDenom m m = 1 := by simp [normDenom]
  have hperlink : ∀ l ∈ g.links,
      redChannel (effectiveWeight l) m m = 0 ∧
      blueChannel (effectiveWeight l) m m = 255 ∧
      getColorForWeight (effectiveWeight l) m m = 0x0000ff := by
    intro l hl
    have hwmem : effectiveWeight l ∈ linkWeights g := List.mem_map_of_mem effectiveWeight hl
    have hwm : effectiveWeight l = m :=
      le_antisymm (le_jsMax_of_mem hmax' hwmem) (jsMin_le_of_mem hmin' hwmem)
    have hT : colorT (effectiveWeight l) m m = 0 := by
      rw [hwm]
      simp [colorT, hden]
    have hr : redChannel (effectiveWeight l) m m = 0 := by
      unfold redChannel
      rw [hT]
      norm_num
    have hb : blueChannel (effectiveWeight l) m m = 255 := by
      unfold blueChannel
      rw [hT]
      norm_num
    refine ⟨hr, hb, ?_⟩
    unfold getColorForWeight
    rw [hr, hb]
    decide
  refine ⟨hden, hperlink, ?_⟩
  intro ln hln
  simp only [buildGroup] at hln
  obtain ⟨l, hl, hbl⟩ := List.mem_filterMap.mp hln
  rw [hmin, hmax] at hbl
  simp only [Option.getD_some] at hbl
  unfold buildLine at hbl
  cases hs : resolveId g.nodes l.source with
  | none => rw [hs] at hbl; simp at hbl
  | some si =>
    cases ht : resolveId g.nodes l.target with
    | none => rw [hs, ht] at hbl; simp at hbl
    | some ti =>
      rw [hs, ht] at hbl
      simp only [Option.some.injEq] at hbl
      subst hbl
      exact (hperlink l hl).2.2

/-- Witness for C2 at `uniformGraph` (all weights 3). -/
theorem claim2_uniform_weights_low_color_witness :
    minWeightOf uniformGraph = some 3 ∧ maxWeightOf uniformGraph = some 3 ∧
    normDenom 3 3 = 1 ∧
    redChannel (effectiveWeight uniformLink) 3 3 = 0 ∧
    blueChannel (effectiveWeight uniformLink) 3 3 = 255 ∧
    getColorForWeight (effectiveWeight uniformLink) 3 3 = 0x0000ff := by
  have h1 : minWeightOf uniformGraph = some 3 := by
    norm_num [uniformGraph, minWeightOf, linkWeights, jsMin, effectiveWeight,
      Option.orElse, min_def]
  have h2 : maxWeightOf uniformGraph = some 3 := by
    norm_num [uniformGraph, maxWeightOf, linkWeights, jsMax, effectiveWeight,
      Option.orElse, max_def]
  have H := claim2_uniform_weights_low_color uniformGraph 3 h1 h2
  have hmem : uniformLink ∈ uniformGraph.links := by simp [uniformGraph, uniformLink]
  have hp := H.2.1 uniformLink hmem
  exact ⟨h1, h2, H.1, hp.1, hp.2.1, hp.2.2⟩

/-- C3, counterexample: a present weight of 0 is NOT used as 0 - the JS
`|| 1` turns it into 1, both in the effective weight and in the weight
stored on the created line's userData. -/
theorem claim3_weight_zero_counterexample :
    effectiveWeight ⟨"a", "b", some 0, none⟩ = 1 ∧
    (buildLine [⟨"a"⟩, ⟨"b"⟩] 0 2 ⟨"a", "b", some 0, none⟩).map (fun ln => ln.weight) =
      some 1 ∧
    (1 : ℚ) ≠ 0 := by
  refine ⟨?_, ?_, by norm_num⟩
  · simp [effectiveWeight, Option.orElse]
  · simp [buildLine, resolveId, effectiveWeight, Option.orElse]

/-- C3 as amended: the effective weight is the `weight` field when present
and nonzero, else the `value` field when `weight` is absent and `value`
present and nonzero, and defaults to 1 when neither field is present or
when the selected field equals 0 (a JS falsy value). -/
theorem claim3_effective_weight_amended (l : Link) :
    (∀ w : ℚ, l.weight = some w → w ≠ 0 → effectiveWeight l = w) ∧
    (∀ v : ℚ, l.weight = none → l.value = some v → v ≠ 0 → effectiveWeight l = v) ∧
    (l.weight = none → l.value = none → effectiveWeight l = 1) ∧
    (l.weight = some 0 → effectiveWeight l = 1) ∧
    (l.weight = none → l.value = some 0 → effectiveWeight l = 1) := by
  refine ⟨?_, ?_, ?_, ?_, ?_⟩
  · intro w hw hne
    simp [effectiveWeight, Option.orElse, hw, hne]
  · intro v hw hv hne
    simp [effectiveWeight, Option.orElse, hw, hv, hne]
  · intro hw hv
    simp [effectiveWeight, Option.orElse, hw, hv]
  · intro hw
    simp [effectiveWeight, Option.orElse, hw]
  · intro hw hv
    simp [effectiveWeight, Option.orElse, hw, hv]

/-- Witness for the amended C3: a present weight 3 is used as 3, a present
weight 0 becomes 1, absent weight with value 4 gives 4, both absent give 1. -/
theorem claim3_effective_weight_amended_witness :
    effectiveWeight ⟨"a", "b", some 3, none⟩ = 3 ∧
    effectiveWeight ⟨"a", "b", some 0, some 4⟩ = 1 ∧
    effectiveWeight ⟨"a", "b", none, some 4⟩ = 4 ∧
    effectiveWeight ⟨"a", "b", none, none⟩ = 1 :=
  ⟨(claim3_effective_weight_amended ⟨"a", "b", some 3, none⟩).1 3 rfl (by norm_num),
    (claim3_effective_weight_amended ⟨"a", "b", some 0, some 4⟩).2.2.2.1 rfl,
    (claim3_effective_weight_amended ⟨"a", "b", none, some 4⟩).2.1 4 rfl rfl (by norm_num),
    (claim3_effective_weight_amended ⟨"a", "b", none, none⟩).2.2.1 rfl rfl⟩

/-- C6: while the font has not loaded, `renderGraph3D` is a complete no-op:
the whole app state - group, current graph, everything - is unchanged. -/
theorem claim6_font_missing_noop (s : AppState) (g : Graph)
    (h : s.loadedFont = false) : renderGraph3D s g = s := by
  simp [renderGraph3D, h]

/-- Witness for C6 at `fontlessState`. -/
theorem claim6_font_missing_noop_witness :
    fontlessState.loadedFont = false ∧
    renderGraph3D fontlessState uniformGraph = fontlessState :=
  ⟨rfl, claim6_font_missing_noop fontlessState uniformGraph rfl⟩

/-- C9: when the submit request fails, `submitDream` leaves the whole state
unchanged - in particular the current graph snapshot and the scene group. -/
theorem claim9_submit_failure_keeps_state (s : AppState) (e : String) :
    submitDream s (Except.error e) = s ∧
    (submitDream s (Except.error e)).currentGraph = s.currentGraph ∧
    (submitDream s (Except.error e)).group = s.group :=
  ⟨rfl, rfl, rfl⟩

/-- A snapshot with one resolvable link (weight 2) and one link whose
target id "x" matches no node. -/
def droppedGraph : Graph :=
  ⟨[⟨"a"⟩, ⟨"b"⟩], [⟨"a", "b", some 2, none⟩, ⟨"a", "x", some 7, none⟩]⟩

/-- The unresolvable link of `droppedGraph`. -/
def droppedLink : Link := ⟨"a", "x", some 7, none⟩

/-- C4: a link with an unresolved endpoint produces no line primitive and
no entry in any node mesh's incident-line list: its `buildLine` is `none`,
the group holds exactly one line per resolved link, every group line stems
from a resolved link, and incident-line lists only reference group lines. -/
theorem claim4_unresolved_link_dropped (g : Graph) (l : Link)
    (hmem : l ∈ g.links)
    (hun : resolveId g.nodes l.source = none ∨ resolveId g.nodes l.target = none) :
    buildLine g.nodes ((minWeightOf g).getD 0) ((maxWeightOf g).getD 0) l = none ∧
    (buildGroup g).lines.length = (resolvedLinks g).length ∧
    (∀ ln ∈ (buildGroup g).lines, ∃ lr, lr ∈ g.links ∧
        (resolveId g.nodes lr.source).isSome = true ∧
        (resolveId g.nodes lr.target).isSome = true ∧
        buildLine g.nodes ((minWeightOf g).getD 0) ((maxWeightOf g).getD 0) lr = some ln) ∧
    (∀ i j, j ∈ meshLinks (buildGroup g).lines i → j < (buildGroup g).lines.length) := by
  refine ⟨?_, ?_, ?_, ?_⟩
  · rcases hun with h | h
    · simp [buildLine, h]
    · cases hs : resolveId g.nodes l.source <;> simp [buildLine, hs, h]
  · simp only [buildGroup, resolvedLinks]
    exact length_filterMap_buildLine g.nodes _ _ g.links
  · intro ln hln
    simp only [buildGroup] at hln
    obtain ⟨lr, hlr, hbl⟩ := List.mem_filterMap.mp hln
    have hsome := buildLine_isSome g.nodes ((minWeightOf g).getD 0) ((maxWeightOf g).getD 0) lr
    rw [hbl] at hsome
    simp only [Option.isSome_some] at hsome
    obtain ⟨hsrc, htgt⟩ := (Bool.and_eq_true _ _).mp hsome.symm
    exact ⟨lr, hlr, hsrc, htgt, hbl⟩
  · intro i j hj
    have := meshLinksFrom_lt i (buildGroup g).lines 0 j hj
    omega

/-- Witness for C4 at `droppedGraph`: the "a" → "x" link is in the
snapshot, unresolved, produces no line, and the group has exactly one line
(for the one resolved link). -/
theorem claim4_unresolved_link_dropped_witness :
    droppedLink ∈ droppedGraph.links ∧
    resolveId droppedGraph.nodes droppedLink.target = none ∧
    buildLine droppedGraph.nodes ((minWeightOf droppedGraph).getD 0)
      ((maxWeightOf droppedGraph).getD 0) droppedLink = none ∧
    (buildGroup droppedGraph).lines.length = (resolvedLinks droppedGraph).length := by
  have hmem : droppedLink ∈ droppedGraph.links := by simp [droppedGraph, droppedLink]
  have hun : resolveId droppedGraph.nodes droppedLink.target = none := by decide
  have H := claim4_unresolved_link_dropped droppedGraph droppedLink hmem (Or.inr hun)
  exact ⟨hmem, hun, H.1, H.2.1⟩

/-- C5: with the font loaded, `renderGraph3D` leaves the group with exactly
one mesh per snapshot node (same ids, in order) and exactly one line per
resolved link, and the rebuilt group does not depend on the previous scene
contents: two app states with arbitrary prior groups yield the same group. -/
theorem claim5_full_rebuild (s sPrev : AppState) (g : Graph)
    (hs : s.loadedFont = true) (hsPrev : sPrev.loadedFont = true) :
    (renderGraph3D s g).group.meshes.map (fun m => m.id) = g.nodes.map (fun n => n.id) ∧
    (renderGraph3D s g).group.lines.length = (resolvedLinks g).length ∧
    (renderGraph3D s g).group = (renderGraph3D sPrev g).group := by
  have hgroup : (renderGraph3D s g).group = buildGroup g := by simp [renderGraph3D, hs]
  have hgroupPrev : (renderGraph3D sPrev g).group = buildGroup g := by
    simp [renderGraph3D, hsPrev]
  refine ⟨?_, ?_, by rw [hgroup, hgroupPrev]⟩
  · rw [hgroup]
    simp [buildGroup, List.map_map, Function.comp]
  · rw [hgroup]
    simp only [buildGroup, resolvedLinks]
    exact length_filterMap_buildLine g.nodes _ _ g.links

/-- An app state with the font loaded and nothing rendered yet. -/
def loadedEmptyState : AppState := ⟨true, ⟨[], []⟩, ⟨[], []⟩⟩

/-- An app state with the font loaded and a stale previous scene. -/
def loadedStaleState : AppState := ⟨true, gradientGraph, buildGroup gradientGraph⟩

/-- Witness for C5: re-rendering `uniformGraph` over a stale scene gives
the same group as rendering it over an empty scene, with matching counts. -/
theorem claim5_full_rebuild_witness :
    loadedStaleState.loadedFont = true ∧ loadedEmptyState.loadedFont = true ∧
    (renderGraph3D loadedStaleState uniformGraph).group.meshes.map (fun m => m.id) =
      uniformGraph.nodes.map (fun n => n.id) ∧
    (renderGraph3D loadedStaleState uniformGraph).group.lines.length =
      (resolvedLinks uniformGraph).length ∧
    (renderGraph3D loadedStaleState uniformGraph).group =
      (renderGraph3D loadedEmptyState uniformGraph).group := by
  have H := claim5_full_rebuild loadedStaleState loadedEmptyState uniformGraph rfl rfl
  exact ⟨rfl, rfl, H.1, H.2.1, H.2.2⟩

/-- The C10 snapshot: one resolved link of weight 5 plus a dropped link of
weight 1 whose target "x" matches no node. -/
def widerGraph : Graph :=
  ⟨[⟨"a"⟩, ⟨"b"⟩], [⟨"a", "b", some 5, none⟩, ⟨"a", "x", some 1, none⟩]⟩

/-- `widerGraph` with the unresolvable link removed. -/
def prunedGraph : Graph := ⟨[⟨"a"⟩, ⟨"b"⟩], [⟨"a", "b", some 5, none⟩]⟩

/-- The unresolvable link of `widerGraph`. -/
def strayLink : Link := ⟨"a", "x", some 1, none⟩

/-- C10: the min/max used for color normalisation range over every link,
dropped ones included - here the dropped weight-1 link pulls the min down
to 1, so the single rendered edge is full red 0xff0000, while the same
snapshot without the dropped link renders the very same edge blue
0x0000ff. -/
theorem claim10_dropped_link_shifts_colors :
    widerGraph.nodes = prunedGraph.nodes ∧
    widerGraph.links = prunedGraph.links ++ [strayLink] ∧
    resolveId widerGraph.nodes strayLink.target = none ∧
    resolvedLinks widerGraph = resolvedLinks prunedGraph ∧
    minWeightOf widerGraph = some 1 ∧ maxWeightOf widerGraph = some 5 ∧
    minWeightOf prunedGraph = some 5 ∧ maxWeightOf prunedGraph = some 5 ∧
    (buildGroup widerGraph).lines.map (fun ln => ln.color) = [0xff0000] ∧
    (buildGroup prunedGraph).lines.map (fun ln => ln.color) = [0x0000ff] ∧
    (0xff0000 : ℕ) ≠ 0x0000ff := by
  refine ⟨rfl, rfl, by decide, ?_, ?_, ?_, ?_, ?_, ?_, ?_, by norm_num⟩
  · norm_num [resolvedLinks, widerGraph, prunedGraph, resolveId, List.filter_cons,
      List.filter_nil]
    decide
  · norm_num [widerGraph, minWeightOf, linkWeights, jsMin, effectiveWeight,
      Option.orElse, min_def]
  · norm_num [widerGraph, maxWeightOf, linkWeights, jsMax, effectiveWeight,
      Option.orElse, max_def]
  · norm_num [prunedGraph, minWeightOf, linkWeights, jsMin, effectiveWeight,
      Option.orElse, min_def]
  · norm_num [prunedGraph, maxWeightOf, linkWeights, jsMax, effectiveWeight,
      Option.orElse, max_def]
  · norm_num [buildGroup, widerGraph, buildLine, resolveId, minWeightOf, maxWeightOf,
      linkWeights, jsMin, jsMax, effectiveWeight, getColorForWeight, redChannel,
      blueChannel, greenChannel, colorT, normDenom, Option.orElse, List.filterMap_cons,
      List.filterMap_nil, min_def, max_def]
    decide
  · norm_num [buildGroup, prunedGraph, buildLine, resolveId, minWeightOf, maxWeightOf,
      linkWeights, jsMin, jsMax, effectiveWeight, getColorForWeight, redChannel,
      blueChannel, greenChannel, colorT, normDenom, Option.orElse, List.filterMap_cons,
      List.filterMap_nil, min_def, max_def]
    decide

/-- C7: after a simulation tick, every line of the group joins exactly the
current positions of the meshes at its two endpoint indices - the very
positions set on that same tick - so line geometry is never stale. -/
theorem claim7_tick_sync (g : Graph) (pos : ℕ → Vec3) (st : RenderState)
    (hm : st.meshes.length = g.nodes.length) :
    ∀ k ln, (tickState g pos st).lines.get? k = some ln →
      ((tickState g pos st).meshes.get? ln.srcIdx).map (fun m => m.position) = some ln.p1 ∧
      ((tickState g pos st).meshes.get? ln.tgtIdx).map (fun m => m.position) = some ln.p2 := by
  intro k ln hk
  have hmem : ln ∈ (tickState g pos st).lines := List.get?_mem hk
  simp only [tickState] at hmem
  obtain ⟨hsrc, htgt, hp1, hp2⟩ :=
    tickLines_mem g.nodes pos _ _ g.links st.lines ln hmem
  constructor
  · simp only [tickState]
    rw [updatePositionsFrom_get pos st.meshes 0 ln.srcIdx]
    cases hg : st.meshes.get? ln.srcIdx with
    | none =>
      exfalso
      have := List.get?_eq_none.mp hg
      omega
    | some m => simp [hp1]
  · simp only [tickState]
    rw [updatePositionsFrom_get pos st.meshes 0 ln.tgtIdx]
    cases hg : st.meshes.get? ln.tgtIdx with
    | none =>
      exfalso
      have := List.get?_eq_none.mp hg
      omega
    | some m => simp [hp2]

/-- A two-node snapshot with one resolved, weightless link. -/
def pairGraph : Graph := ⟨[⟨"a"⟩, ⟨"b"⟩], [⟨"a", "b", none, none⟩]⟩

/-- Concrete simulated positions for a tick. -/
def tickPos : ℕ → Vec3 := fun n => ((n : ℚ) + 1, 2, 3)

/-- The line of `pairGraph` after a tick at `tickPos`. -/
def tickedLine : LineVis := ⟨0, 1, 1, 255, some 255, 9/10, (1, 2, 3), (2, 2, 3)⟩

/-- Witness for C7: ticking the freshly built `pairGraph` group moves the
single line's endpoints exactly onto its two meshes' new positions. -/
theorem claim7_tick_sync_witness :
    (buildGroup pairGraph).meshes.length = pairGraph.nodes.length ∧
    (tickState pairGraph tickPos (buildGroup pairGraph)).lines.get? 0 = some tickedLine ∧
    ((tickState pairGraph tickPos (buildGroup pairGraph)).meshes.get? tickedLine.srcIdx).map
        (fun m => m.position) = some tickedLine.p1 ∧
    ((tickState pairGraph tickPos (buildGroup pairGraph)).meshes.get? tickedLine.tgtIdx).map
        (fun m => m.position) = some tickedLine.p2 := by
  have hm : (buildGroup pairGraph).meshes.length = pairGraph.nodes.length := by
    simp [buildGroup, pairGraph]
  have hget : (tickState pairGraph tickPos (buildGroup pairGraph)).lines.get? 0 =
      some tickedLine := by
    norm_num [tickState, tickLines, buildGroup, buildLine, pairGraph, tickPos, tickedLine,
      resolveId, minWeightOf, maxWeightOf, linkWeights, jsMin, jsMax, effectiveWeight,
      Option.orElse, getColorForWeight, redChannel, blueChannel, greenChannel, colorT,
      normDenom, List.filterMap_cons, List.filterMap_nil,
      show (("a" : String) = "b") ↔ False from iff_false_intro (by decide),
      Int.toNat_ofNat]
    decide
  have H := claim7_tick_sync pairGraph tickPos (buildGroup pairGraph) hm 0 tickedLine hget
  exact ⟨hm, hget, H.1, H.2⟩

/-- C8: a pointer-move hit on a node mesh that is not already highlighted
first resets all highlight state and then recolors exactly that mesh and
exactly its incident lines to 0xffff00; a pointer-move with no hit hides
the tooltip, restores every mesh to 0xffffff and every line to its
originally recorded color (0x888888 when none was recorded) with the
default 0.9 opacity. -/
theorem claim8_hover_highlight (st : UIState) (i : ℕ)
    (hne : st.highlighted ≠ some i) :
    ((onMouseMove st (some i)).highlighted = some i ∧
      (∀ k m, st.group.meshes.get? k = some m →
        ((onMouseMove st (some i)).group.meshes.get? k).map (fun x => x.color) =
          some (if k = i then 0xffff00 else 0xffffff)) ∧
      (∀ k ln, st.group.lines.get? k = some ln →
        ((onMouseMove st (some i)).group.lines.get? k).map (fun x => x.color) =
          some (if ln.srcIdx = i ∨ ln.tgtIdx = i then 0xffff00 else resetColor ln))) ∧
    ((onMouseMove st none).tooltipVisible = false ∧
      (onMouseMove st none).highlighted = none ∧
      (∀ k m, st.group.meshes.get? k = some m →
        ((onMouseMove st none).group.meshes.get? k).map (fun x => x.color) =
          some 0xffffff) ∧
      (∀ k ln, st.group.lines.get? k = some ln →
        ((onMouseMove st none).group.lines.get? k).map (fun x => (x.color, x.opacity)) =
          some (resetColor ln, 9/10))) := by
  have hbranch : onMouseMove st (some i) =
      { group := highlightNode (resetHighlights st.group) i,
        highlighted := some i, tooltipVisible := true } := by
    simp [onMouseMove, hne]
  refine ⟨⟨by rw [hbranch], ?_, ?_⟩, rfl, rfl, ?_, ?_⟩
  · intro k m hk
    rw [hbranch]
    simp only [highlightNode, resetHighlights]
    rw [highlightMeshesFrom_get i _ 0 k, List.get?_map, hk]
    by_cases hki : k = i <;> simp [hki]
  · intro k ln hk
    rw [hbranch]
    simp only [highlightNode, resetHighlights]
    rw [List.get?_map, List.get?_map, hk]
    by_cases hcond : ln.srcIdx = i ∨ ln.tgtIdx = i <;> simp [hcond]
  · intro k m hk
    simp only [onMouseMove, resetHighlights]
    rw [List.get?_map, hk]
    simp
  · intro k ln hk
    simp only [onMouseMove, resetHighlights]
    rw [List.get?_map, hk]
    simp

/-- A UI state over the freshly rendered `pairGraph`, nothing highlighted. -/
def hoverState : UIState := ⟨buildGroup pairGraph, none, false⟩

/-- The single line of `hoverState` as created by `buildGroup`. -/
def hoverLine : LineVis := ⟨0, 1, 1, 255, some 255, 9/10, (0, 0, 0), (0, 0, 0)⟩

/-- Witness for C8: hovering mesh 0 of `hoverState` turns it and its
incident line 0xffff00 while mesh 1 stays 0xffffff; moving off hides the
tooltip. -/
theorem claim8_hover_highlight_witness :
    hoverState.highlighted ≠ some 0 ∧
    ((onMouseMove hoverState (some 0)).group.meshes.get? 0).map (fun x => x.color) =
      some 0xffff00 ∧
    ((onMouseMove hoverState (some 0)).group.meshes.get? 1).map (fun x => x.color) =
      some 0xffffff ∧
    ((onMouseMove hoverState (some 0)).group.lines.get? 0).map (fun x => x.color) =
      some 0xffff00 ∧
    (onMouseMove hoverState none).tooltipVisible = false := by
  have hne : hoverState.highlighted ≠ some 0 := by simp [hoverState]
  have H := claim8_hover_highlight hoverState 0 hne
  have hm0 : hoverState.group.meshes.get? 0 = some ⟨"a", (0, 0, 0), 0xffffff⟩ := rfl
  have hm1 : hoverState.group.meshes.get? 1 = some ⟨"b", (0, 0, 0), 0xffffff⟩ := rfl
  have hl0 : hoverState.group.lines.get? 0 = some hoverLine := by
    norm_num [hoverState, buildGroup, buildLine, pairGraph, hoverLine, resolveId,
      minWeightOf, maxWeightOf, linkWeights, jsMin, jsMax, effectiveWeight, Option.orElse,
      getColorForWeight, redChannel, blueChannel, greenChannel, colorT, normDenom,
      List.filterMap_cons, List.filterMap_nil,
      show (("a" : String) = "b") ↔ False from iff_false_intro (by decide),
      Int.toNat_ofNat]
    decide
  refine ⟨hne, ?_, ?_, ?_, H.2.1⟩
  · simpa using H.1.2.1 0 _ hm0
  · simpa using H.1.2.1 1 _ hm1
  · simpa [hoverLine] using H.1.2.2 0 hoverLine hl0

end Dreamscape
